import Mathlib

/-
Shallow embedding of the mock-interview session orchestrator.

Sources embedded here:
  - src/services/geminiService.ts : the geminiService wrapper (startSession,
    sendAnswer, generateFinalReport) and the App component (startInterview,
    quitInterview, submitAnswer, finishInterview, the timer effect and the
    speech-text sync effect).
  - src/unnamed/part_000 : the useSpeechRecognition hook (startListening,
    stopListening, resetText) and the shared types (AppStatus, Language,
    InterviewQnA, FinalResult, TurnResponse, InterviewState).

Modelling conventions:
  - React state is a single record SysState combining InterviewState with the
    hook state (text, isListening, isSupported).
  - Each async handler is split into its atomic state updates (command phase
    and resolution phase), because awaits let other events interleave.  The
    resolution events carry the data the JS closure captured at command time:
    the captured transcript, and the isListening value captured by the
    useCallback closures of startListening (the hook memoises startListening
    with dependency [isListening], and the async handlers keep the closure
    from the render in which they were created, so the isListening value it
    tests is the one current when the handler started, not when it resumed).
  - The speech-text sync effect (App, lines 263-267) reruns exactly when the
    committed render changed speechText or status; fireSync reproduces that:
    it compares the pre- and post-event values of hookText and status and,
    on a change, copies hookText into currentTranscript when status is
    INTERVIEW_ACTIVE.
  - The countdown interval is installed only while status is INTERVIEW_ACTIVE
    with timeLeftSeconds > 0 (timer effect, lines 270-288); per the
    serialized event model of spec section 5 a tick event is therefore a
    no-op in any other state, which is the guard on the tick case of exec.
  - Numbers are Int (JS numbers used integrally here); ids are Nat.
  - Fallible upstream calls take their outcome as an explicit argument: the
    Upstream type distinguishes the concrete runtime paths of the wrapper
    (request rejected; falsy response.text; JSON.parse threw; JSON.parse
    succeeded with some value).  The value of a successful parse is passed
    through an unchecked cast in the source, hence the Option fields of
    ParsedTurn.
  - View-only fields never read by the orchestrator (isMicActive, isCameraOn)
    are omitted.  The time-limit slider and language buttons only operate
    before a session starts; they are modelled as parameters of initState.
-/

namespace MockInterview

/-- AppStatus from src/unnamed/part_000 (types). -/
inductive AppStatus where
  | IDLE
  | SETUP
  | INITIALIZING
  | INTERVIEW_ACTIVE
  | PROCESSING_ANSWER
  | FINISHED
deriving DecidableEq, Repr

/-- Language from src/unnamed/part_000 (types). -/
inductive Language where
  | ja
  | en
deriving DecidableEq, Repr

/-- InterviewQnA from src/unnamed/part_000 (types): one ledger turn. -/
structure InterviewQnA where
  id : Nat
  question : String
  answer : String
  evaluation : Option String
deriving DecidableEq, Repr

/-- FinalResult from src/unnamed/part_000 (types): the final report. -/
structure FinalResult where
  score : Int
  summary : String
  goodPoints : List String
  badPoints : List String
  advice : String
deriving DecidableEq, Repr

/-- TurnResponse from src/unnamed/part_000 (types): evaluation plus next question. -/
structure TurnResponse where
  evaluation : String
  nextQuestion : String
deriving DecidableEq, Repr

/-- The JS object obtained from a successful JSON parse of a turn payload.
Both fields are Option because the source casts the parsed value with
an unchecked type assertion and never validates the shape, so either
field may be absent at runtime. -/
structure ParsedTurn where
  evaluation : Option String
  nextQuestion : Option String
deriving DecidableEq, Repr

/-- Outcome of one upstream exchange call, split into the concrete runtime
paths of the wrappers in src/services/geminiService.ts: the request
rejected (transportError), response.text was falsy (emptyText), JSON
parsing threw (parseError), or parsing produced a value (parsed). -/
inductive Upstream (α : Type) where
  | transportError
  | emptyText
  | parseError
  | parsed (v : α)
deriving DecidableEq, Repr

/-- Embedding of the JS String.prototype.trim primitive used by the guards
of the App component: strips leading and trailing whitespace.  Written
over the character list so that it evaluates by kernel reduction. -/
def jsTrim (str : String) : String :=
  String.mk (((str.toList.dropWhile Char.isWhitespace).reverse.dropWhile Char.isWhitespace).reverse)

/-- startSession from src/services/geminiService.ts lines 83-109: throws on a
rejected request, on falsy response text, and on a JSON parse failure
(the catch logs and rethrows); a successfully parsed value is returned
as-is through the unchecked cast. -/
def startSession (u : Upstream ParsedTurn) : Except Unit ParsedTurn :=
  match u with
  | .transportError => .error ()
  | .emptyText => .error ()
  | .parseError => .error ()
  | .parsed v => .ok v

/-- sendAnswer from src/services/geminiService.ts lines 114-129: first throws
when no chat session is open, then behaves like startSession on the
upstream outcome. -/
def sendAnswer (chatOpen : Bool) (u : Upstream ParsedTurn) : Except Unit ParsedTurn :=
  if chatOpen = false then .error ()
  else
    match u with
    | .transportError => .error ()
    | .emptyText => .error ()
    | .parseError => .error ()
    | .parsed v => .ok v

/-- The locally synthesized degraded report built in the catch branch of
generateFinalReport, src/services/geminiService.ts lines 162-171. -/
def placeholderReport (lang : Language) : FinalResult :=
  { score := 0
    summary := if lang = .en then "Error generating report." else "レポートの生成中にエラーが発生しました。"
    goodPoints := []
    badPoints := []
    advice := if lang = .en then "Please try again." else "もう一度お試しください。" }

/-- generateFinalReport from src/services/geminiService.ts lines 134-172: the
history argument only shapes the prompt; every failure path (rejected
request, falsy text, parse throw) is caught and replaced by the
placeholder, so the function always returns a FinalResult.  A parsed
value is returned as-is through the unchecked cast. -/
def generateFinalReport (hist : List InterviewQnA) (lang : Language)
    (u : Upstream FinalResult) : FinalResult :=
  match u with
  | .parsed r => r
  | _ => placeholderReport lang

/-- Combined orchestrator state: the InterviewState record of the App
component plus the useSpeechRecognition hook state. -/
structure SysState where
  status : AppStatus
  timeLimitMinutes : Int
  timeLeftSeconds : Int
  currentTranscript : String
  qnaHistory : List InterviewQnA
  finalResult : Option FinalResult
  error : Option String
  language : Language
  hookText : String
  isListening : Bool
  isSupported : Bool
deriving DecidableEq, Repr

/-- startListening from src/unnamed/part_000 lines 76-86, as executed by a
closure that captured isListening = cl: when the recognizer exists
(isSupported) and cl is false it clears the accumulated text and starts
listening, otherwise it is a no-op. -/
def startListeningStale (cl : Bool) (s : SysState) : SysState :=
  if s.isSupported = true ∧ cl = false then
    { s with hookText := "", isListening := true }
  else s

/-- stopListening from src/unnamed/part_000 lines 88-93: stops when the
recognizer exists and listening is on; the accumulated text is kept. -/
def stopListeningM (s : SysState) : SysState :=
  if s.isSupported = true ∧ s.isListening = true then
    { s with isListening := false }
  else s

/-- resetText from src/unnamed/part_000 lines 95-97. -/
def resetTextM (s : SysState) : SysState :=
  { s with hookText := "" }

/-- The speech-text sync effect body, App lines 263-267: while the interview
is active the latest accumulated speech text replaces the buffer. -/
def syncIfActive (s : SysState) : SysState :=
  if s.status = .INTERVIEW_ACTIVE then { s with currentTranscript := s.hookText } else s

/-- Rerun rule of the sync effect: its dependency array is the speech text
and the status, so it reruns exactly when one of those changed in the
committed render. -/
def fireSync (old new : SysState) : SysState :=
  if new.hookText = old.hookText ∧ new.status = old.status then new
  else syncIfActive new

/-- In-place close of the newest ledger turn, App lines 357-366: the last
entry gets the captured answer and the evaluation from the response.  On
an empty history the JS code writes to index -1, which adds no element,
so the list is unchanged. -/
def closeLast (ans ev : String) : List InterviewQnA → List InterviewQnA
  | [] => []
  | [q] => [{ q with answer := ans, evaluation := some ev }]
  | q :: rest => q :: closeLast ans ev rest

/-- The ledger update of a successful submitAnswer, App lines 357-372: close
the newest turn, then append the next question with id length + 1. -/
def pushNext (captured : String) (resp : TurnResponse)
    (h : List InterviewQnA) : List InterviewQnA :=
  closeLast captured resp.evaluation h
    ++ [{ id := h.length + 1, question := resp.nextQuestion, answer := "", evaluation := none }]

/-- The history finishInterview submits, App line 398: turns whose answer is
nonempty after trimming. -/
def validHistoryOf (s : SysState) : List InterviewQnA :=
  s.qnaHistory.filter (fun q => jsTrim q.answer != "")

/-- The message submitAnswer sends upstream, or none when the guard at App
lines 345-346 returns before any call is issued. -/
def submitAnswerCall (s : SysState) : Option String :=
  if s.status = .INTERVIEW_ACTIVE ∧ jsTrim s.currentTranscript ≠ "" then
    some s.currentTranscript
  else none

/-- Atomic state-update events of the orchestrator.  Async handlers appear
as a command event plus a resolution event; resolution events carry the
values their JS closures captured at command time (captured transcript,
captured isListening). -/
inductive Event where
  | startCmd
  | startOk (cl : Bool) (resp : TurnResponse)
  | startFail
  | speech (t : String)
  | micToggle
  | submitCmd
  | submitOk (captured : String) (cl : Bool) (resp : TurnResponse)
  | submitFail (cl : Bool)
  | quitCmd
  | tick
  | finishResolve (hist : List InterviewQnA) (u : Upstream FinalResult)
  | goHome
deriving DecidableEq, Repr

/-- Raw effect of one event, before the sync effect rerun.

 startCmd      : App lines 303-310 (startInterview before the await)
 startOk       : App lines 313-331 (startInterview success branch)
 startFail     : App line 334 (startInterview catch branch)
 speech        : hook lines 30-46 (onresult publishes accumulated text)
 micToggle     : App line 631 (mic button, current-render closure)
 submitCmd     : App lines 344-351 (submitAnswer before the await)
 submitOk      : App lines 357-384 (submitAnswer success branch)
 submitFail    : App lines 386-389 (submitAnswer catch branch)
 quitCmd       : App lines 338-342 (quitInterview)
 tick          : App lines 270-288 (timer effect; a tick exists only while
                 status is INTERVIEW_ACTIVE with time left, and the callback
                 at timeLeftSeconds <= 1 runs finishInterview and pins the
                 clock to 0, otherwise decrements by one)
 finishResolve : App lines 396-406 (finishInterview after the await; the
                 submitted history and the upstream outcome are the payload)
 goHome        : App line 565 (result-screen button). -/
def exec : Event → SysState → SysState
  | .startCmd, s =>
      { s with status := .INITIALIZING, timeLeftSeconds := s.timeLimitMinutes * 60,
               qnaHistory := [], finalResult := none, error := none }
  | .startOk cl resp, s =>
      let s1 := { s with status := .INTERVIEW_ACTIVE,
                         qnaHistory := [{ id := 1, question := resp.nextQuestion,
                                          answer := "", evaluation := none }] }
      if s1.isSupported = true then startListeningStale cl (resetTextM s1) else s1
  | .startFail, s =>
      { s with status := .IDLE, error := some "AIセッションの開始に失敗しました。" }
  | .speech t, s =>
      if s.isListening = true then { s with hookText := t } else s
  | .micToggle, s =>
      if s.isListening = true then stopListeningM s else startListeningStale false s
  | .submitCmd, s =>
      if s.status = .INTERVIEW_ACTIVE ∧ jsTrim s.currentTranscript ≠ "" then
        { stopListeningM s with status := .PROCESSING_ANSWER }
      else s
  | .submitOk captured cl resp, s =>
      let s1 := { s with status := .INTERVIEW_ACTIVE,
                         qnaHistory := pushNext captured resp s.qnaHistory,
                         currentTranscript := "" }
      startListeningStale cl (resetTextM s1)
  | .submitFail cl, s =>
      startListeningStale cl
        { s with status := .INTERVIEW_ACTIVE, error := some "回答の処理に失敗しました。" }
  | .quitCmd, s =>
      { stopListeningM s with status := .IDLE, currentTranscript := "" }
  | .tick, s =>
      if s.status = .INTERVIEW_ACTIVE ∧ 0 < s.timeLeftSeconds then
        if s.timeLeftSeconds ≤ 1 then
          { stopListeningM s with status := .PROCESSING_ANSWER, timeLeftSeconds := 0 }
        else
          { s with timeLeftSeconds := s.timeLeftSeconds - 1 }
      else s
  | .finishResolve hist u, s =>
      { s with status := .FINISHED,
               finalResult := some (generateFinalReport hist s.language u) }
  | .goHome, s =>
      { s with status := .IDLE }

/-- One serialized transition: the raw event effect followed by the sync
effect rerun when its dependencies changed. -/
def step (e : Event) (s : SysState) : SysState :=
  fireSync s (exec e s)

/-- Initial state of the App component (lines 235-246) plus hook state; the
capability flag, the slider value and the language selection are fixed
before a session starts and appear as parameters. -/
def initState (supported : Bool) (limit : Int) (lang : Language) : SysState :=
  { status := .IDLE, timeLimitMinutes := limit, timeLeftSeconds := 0,
    currentTranscript := "", qnaHistory := [], finalResult := none, error := none,
    language := lang, hookText := "", isListening := false, isSupported := supported }

/-- Run a sequence of events from a state. -/
def run (es : List Event) (s : SysState) : SysState :=
  es.foldl (fun s e => step e s) s

/-- Events that replace the ledger wholesale (session restart). -/
def isStartEvent : Event → Bool
  | .startCmd => true
  | .startOk _ _ => true
  | .startFail => true
  | _ => false

/-- A tick in this state runs the deadline-expiry branch. -/
def tickFires (s : SysState) : Prop :=
  s.status = .INTERVIEW_ACTIVE ∧ 0 < s.timeLeftSeconds ∧ s.timeLeftSeconds ≤ 1

/-- Ids of the ledger turns, in order. -/
def ledgerIds (h : List InterviewQnA) : List Nat :=
  h.map (fun q => q.id)

section HelperLemmas

variable (s : SysState)

@[simp] lemma startListeningStale_status (cl : Bool) :
    (startListeningStale cl s).status = s.status := by
  unfold startListeningStale; split <;> rfl

@[simp] lemma startListeningStale_qnaHistory (cl : Bool) :
    (startListeningStale cl s).qnaHistory = s.qnaHistory := by
  unfold startListeningStale; split <;> rfl

@[simp] lemma startListeningStale_finalResult (cl : Bool) :
    (startListeningStale cl s).finalResult = s.finalResult := by
  unfold startListeningStale; split <;> rfl

@[simp] lemma startListeningStale_error (cl : Bool) :
    (startListeningStale cl s).error = s.error := by
  unfold startListeningStale; split <;> rfl

@[simp] lemma startListeningStale_language (cl : Bool) :
    (startListeningStale cl s).language = s.language := by
  unfold startListeningStale; split <;> rfl

@[simp] lemma startListeningStale_timeLeftSeconds (cl : Bool) :
    (startListeningStale cl s).timeLeftSeconds = s.timeLeftSeconds := by
  unfold startListeningStale; split <;> rfl

@[simp] lemma startListeningStale_timeLimitMinutes (cl : Bool) :
    (startListeningStale cl s).timeLimitMinutes = s.timeLimitMinutes := by
  unfold startListeningStale; split <;> rfl

@[simp] lemma startListeningStale_currentTranscript (cl : Bool) :
    (startListeningStale cl s).currentTranscript = s.currentTranscript := by
  unfold startListeningStale; split <;> rfl

@[simp] lemma startListeningStale_isSupported (cl : Bool) :
    (startListeningStale cl s).isSupported = s.isSupported := by
  unfold startListeningStale; split <;> rfl

@[simp] lemma stopListeningM_status : (stopListeningM s).status = s.status := by
  unfold stopListeningM; split <;> rfl

@[simp] lemma stopListeningM_qnaHistory : (stopListeningM s).qnaHistory = s.qnaHistory := by
  unfold stopListeningM; split <;> rfl

@[simp] lemma stopListeningM_finalResult : (stopListeningM s).finalResult = s.finalResult := by
  unfold stopListeningM; split <;> rfl

@[simp] lemma stopListeningM_error : (stopListeningM s).error = s.error := by
  unfold stopListeningM; split <;> rfl

@[simp] lemma stopListeningM_language : (stopListeningM s).language = s.language := by
  unfold stopListeningM; split <;> rfl

@[simp] lemma stopListeningM_timeLeftSeconds :
    (stopListeningM s).timeLeftSeconds = s.timeLeftSeconds := by
  unfold stopListeningM; split <;> rfl

@[simp] lemma stopListeningM_timeLimitMinutes :
    (stopListeningM s).timeLimitMinutes = s.timeLimitMinutes := by
  unfold stopListeningM; split <;> rfl

@[simp] lemma stopListeningM_currentTranscript :
    (stopListeningM s).currentTranscript = s.currentTranscript := by
  unfold stopListeningM; split <;> rfl

@[simp] lemma stopListeningM_hookText : (stopListeningM s).hookText = s.hookText := by
  unfold stopListeningM; split <;> rfl

@[simp] lemma stopListeningM_isSupported : (stopListeningM s).isSupported = s.isSupported := by
  unfold stopListeningM; split <;> rfl

@[simp] lemma syncIfActive_status : (syncIfActive s).status = s.status := by
  unfold syncIfActive; split <;> rfl

@[simp] lemma syncIfActive_qnaHistory : (syncIfActive s).qnaHistory = s.qnaHistory := by
  unfold syncIfActive; split <;> rfl

@[simp] lemma syncIfActive_finalResult : (syncIfActive s).finalResult = s.finalResult := by
  unfold syncIfActive; split <;> rfl

@[simp] lemma syncIfActive_error : (syncIfActive s).error = s.error := by
  unfold syncIfActive; split <;> rfl

@[simp] lemma syncIfActive_language : (syncIfActive s).language = s.language := by
  unfold syncIfActive; split <;> rfl

@[simp] lemma syncIfActive_timeLeftSeconds :
    (syncIfActive s).timeLeftSeconds = s.timeLeftSeconds := by
  unfold syncIfActive; split <;> rfl

@[simp] lemma syncIfActive_timeLimitMinutes :
    (syncIfActive s).timeLimitMinutes = s.timeLimitMinutes := by
  unfold syncIfActive; split <;> rfl

@[simp] lemma syncIfActive_hookText : (syncIfActive s).hookText = s.hookText := by
  unfold syncIfActive; split <;> rfl

@[simp] lemma syncIfActive_isListening : (syncIfActive s).isListening = s.isListening := by
  unfold syncIfActive; split <;> rfl

@[simp] lemma syncIfActive_isSupported : (syncIfActive s).isSupported = s.isSupported := by
  unfold syncIfActive; split <;> rfl

end HelperLemmas

section StepProjections

variable (e : Event) (s : SysState)

@[simp] lemma step_status : (step e s).status = (exec e s).status := by
  unfold step fireSync; split
  · rfl
  · simp

@[simp] lemma step_qnaHistory : (step e s).qnaHistory = (exec e s).qnaHistory := by
  unfold step fireSync; split
  · rfl
  · simp

@[simp] lemma step_finalResult : (step e s).finalResult = (exec e s).finalResult := by
  unfold step fireSync; split
  · rfl
  · simp

@[simp] lemma step_error : (step e s).error = (exec e s).error := by
  unfold step fireSync; split
  · rfl
  · simp

@[simp] lemma step_language : (step e s).language = (exec e s).language := by
  unfold step fireSync; split
  · rfl
  · simp

@[simp] lemma step_timeLeftSeconds :
    (step e s).timeLeftSeconds = (exec e s).timeLeftSeconds := by
  unfold step fireSync; split
  · rfl
  · simp

@[simp] lemma step_timeLimitMinutes :
    (step e s).timeLimitMinutes = (exec e s).timeLimitMinutes := by
  unfold step fireSync; split
  · rfl
  · simp

@[simp] lemma step_hookText : (step e s).hookText = (exec e s).hookText := by
  unfold step fireSync; split
  · rfl
  · simp

@[simp] lemma step_isListening : (step e s).isListening = (exec e s).isListening := by
  unfold step fireSync; split
  · rfl
  · simp

@[simp] lemma step_isSupported : (step e s).isSupported = (exec e s).isSupported := by
  unfold step fireSync; split
  · rfl
  · simp

end StepProjections

/-- C4: for every state in which status is not INTERVIEW_ACTIVE, or in which
the active buffer is empty or whitespace-only after trimming, invoking
submit is a no-op: the state (status and ledger included) is unchanged
and no exchange call is issued. -/
theorem claim4_submit_noop (s : SysState)
    (h : s.status ≠ .INTERVIEW_ACTIVE ∨ jsTrim s.currentTranscript = "") :
    step .submitCmd s = s ∧ submitAnswerCall s = none := by
  have hg : ¬ (s.status = .INTERVIEW_ACTIVE ∧ jsTrim s.currentTranscript ≠ "") := by
    rcases h with h | h
    · exact fun hc => h hc.1
    · exact fun hc => hc.2 h
  refine ⟨?_, ?_⟩
  · show fireSync s (exec .submitCmd s) = s
    have hx : exec .submitCmd s = s := by
      simp only [exec]; rw [if_neg hg]
    rw [hx]
    unfold fireSync
    rw [if_pos ⟨rfl, rfl⟩]
  · unfold submitAnswerCall
    rw [if_neg hg]

def c4ws : SysState := initState true 5 .ja

/-- Witness for C4 at a concrete idle state. -/
theorem claim4_submit_noop_witness :
    (c4ws.status ≠ .INTERVIEW_ACTIVE ∨ jsTrim c4ws.currentTranscript = "") ∧
    (step .submitCmd c4ws = c4ws ∧ submitAnswerCall c4ws = none) :=
  ⟨Or.inl (by decide), claim4_submit_noop c4ws (Or.inl (by decide))⟩

/-- C7: for every failure of final-report generation (rejected request, empty
text, or parse failure), the session still reaches FINISHED and the
report is the locally synthesized degraded one, whose score is 0 and
whose summary is the explanatory text of the session language. -/
theorem claim7_report_failure (history : List InterviewQnA) (s : SysState) :
    ((step (.finishResolve history .transportError) s).status = .FINISHED
      ∧ (step (.finishResolve history .transportError) s).finalResult
          = some (placeholderReport s.language))
    ∧ ((step (.finishResolve history .emptyText) s).status = .FINISHED
      ∧ (step (.finishResolve history .emptyText) s).finalResult
          = some (placeholderReport s.language))
    ∧ ((step (.finishResolve history .parseError) s).status = .FINISHED
      ∧ (step (.finishResolve history .parseError) s).finalResult
          = some (placeholderReport s.language))
    ∧ (placeholderReport s.language).score = 0
    ∧ (placeholderReport Language.en).summary = "Error generating report."
    ∧ (placeholderReport Language.ja).summary = "レポートの生成中にエラーが発生しました。" := by
  refine ⟨⟨?_, ?_⟩, ⟨?_, ?_⟩, ⟨?_, ?_⟩, rfl, rfl, rfl⟩ <;>
    simp [exec, generateFinalReport]

/-- C10: generateFinalReport is total: a parsed report is returned as-is and
every failure path yields the placeholder, so the resolution of
finishInterview always sets status FINISHED with a non-null report and
the catch branch of finishInterview never runs. -/
theorem claim10_generate_total (history : List InterviewQnA) (lang : Language)
    (u : Upstream FinalResult) (s : SysState) :
    (∀ r, generateFinalReport history lang (.parsed r) = r)
    ∧ generateFinalReport history lang .transportError = placeholderReport lang
    ∧ generateFinalReport history lang .emptyText = placeholderReport lang
    ∧ generateFinalReport history lang .parseError = placeholderReport lang
    ∧ (step (.finishResolve history u) s).status = .FINISHED
    ∧ (step (.finishResolve history u) s).finalResult
        = some (generateFinalReport history s.language u) := by
  refine ⟨fun r => rfl, rfl, rfl, rfl, ?_, ?_⟩ <;> simp [exec]

/-- C9 counterexample: a schema-malformed payload (well-formed JSON missing
both fields) and a payload whose fields are empty strings are both
accepted without any error: the calls succeed and hand the value through
unvalidated, refuting the claim that malformed or empty payloads always
fail and are never coerced into a TurnResult with empty strings. -/
theorem claim9_counterexample :
    startSession (.parsed { evaluation := none, nextQuestion := none })
      = .ok { evaluation := none, nextQuestion := none }
    ∧ sendAnswer true (.parsed { evaluation := some "", nextQuestion := some "" })
      = .ok { evaluation := some "", nextQuestion := some "" } :=
  ⟨rfl, rfl⟩

/-- C9 amended: a rejected request, falsy response text, and a JSON parse
failure are error conditions for both startSession and sendAnswer (and
sendAnswer fails without an open chat session); but any successfully
parsed JSON value, whatever its shape, is returned as-is with no
validation. -/
theorem claim9_amended :
    startSession .transportError = .error ()
    ∧ startSession .emptyText = .error ()
    ∧ startSession .parseError = .error ()
    ∧ (∀ u, sendAnswer false u = .error ())
    ∧ sendAnswer true .transportError = .error ()
    ∧ sendAnswer true .emptyText = .error ()
    ∧ sendAnswer true .parseError = .error ()
    ∧ (∀ v, startSession (.parsed v) = .ok v)
    ∧ (∀ v, sendAnswer true (.parsed v) = .ok v) :=
  ⟨rfl, rfl, rfl, fun _ => rfl, rfl, rfl, rfl, fun _ => rfl, fun _ => rfl⟩

def c8trace : List Event := [.startCmd, .startOk false ⟨"", "Q1"⟩, .quitCmd]

/-- C8 counterexample: quitting an active session is a transition into IDLE,
yet the ledger keeps the open turn instead of being reset, refuting the
claim that the ledger, report and error are cleared on every transition
into Idle. -/
theorem claim8_counterexample :
    (run c8trace (initState true 5 .ja)).status = .IDLE
    ∧ (run c8trace (initState true 5 .ja)).qnaHistory
        = [{ id := 1, question := "Q1", answer := "", evaluation := none }] :=
  ⟨rfl, rfl⟩

/-- C8 amended: the ledger, report and error are reset on the transition out
of Idle into INITIALIZING (startInterview), not on entry into Idle; both
quitInterview and the result-screen home button leave the ledger, the
report and the error untouched (quit additionally clears the buffer). -/
theorem claim8_amended (s : SysState) :
    ((step .startCmd s).status = .INITIALIZING
      ∧ (step .startCmd s).qnaHistory = []
      ∧ (step .startCmd s).finalResult = none
      ∧ (step .startCmd s).error = none)
    ∧ ((step .quitCmd s).status = .IDLE
      ∧ (step .quitCmd s).qnaHistory = s.qnaHistory
      ∧ (step .quitCmd s).finalResult = s.finalResult
      ∧ (step .quitCmd s).error = s.error
      ∧ (step .quitCmd s).currentTranscript = "")
    ∧ ((step .goHome s).status = .IDLE
      ∧ (step .goHome s).qnaHistory = s.qnaHistory
      ∧ (step .goHome s).finalResult = s.finalResult
      ∧ (step .goHome s).error = s.error) := by
  refine ⟨⟨?_, ?_, ?_, ?_⟩, ⟨?_, ?_, ?_, ?_, ?_⟩, ⟨?_, ?_, ?_, ?_⟩⟩ <;>
    first
      | simp [exec]
      | (show (fireSync s (exec .quitCmd s)).currentTranscript = ""
         unfold fireSync syncIfActive
         split
         · rfl
         · split <;> simp_all [exec])

def c3trace : List Event :=
  [.startCmd, .startOk false ⟨"", "Q1"⟩, .speech "hello", .submitCmd, .submitFail true]

/-- C3 counterexample: a session whose capture was running when the user
submitted.  After the exchange failure the session is back in
INTERVIEW_ACTIVE, but capture is NOT resumed: the startListening call in
the catch branch runs a closure that captured isListening = true, so it
is a no-op and the recognizer stays stopped, refuting the claim that
capture resumes on every exchange failure. -/
theorem claim3_counterexample :
    (run c3trace (initState true 5 .ja)).status = .INTERVIEW_ACTIVE
    ∧ (run c3trace (initState true 5 .ja)).isListening = false
    ∧ (run c3trace (initState true 5 .ja)).currentTranscript = "hello"
    ∧ (run c3trace (initState true 5 .ja)).qnaHistory
        = [{ id := 1, question := "Q1", answer := "", evaluation := none }] :=
  ⟨rfl, rfl, rfl, rfl⟩

/-- C3 amended: on an exchange failure during PROCESSING_ANSWER the session
returns to INTERVIEW_ACTIVE with the ledger unchanged and the error
surfaced, but capture and buffer depend on the isListening value the
startListening closure captured when the submission started: if capture
was running then (cl = true) the resume call is a stale no-op, capture
stays stopped and the buffer is preserved; if capture was off then
(cl = false, supported) capture does resume, and resuming clears the
accumulated text, which the sync effect copies over the buffer, so the
buffer is emptied. -/
theorem claim3_amended (s : SysState) (cl : Bool)
    (hP : s.status = .PROCESSING_ANSWER)
    (hbuf : s.hookText = s.currentTranscript) :
    (step (.submitFail cl) s).status = .INTERVIEW_ACTIVE
    ∧ (step (.submitFail cl) s).qnaHistory = s.qnaHistory
    ∧ (step (.submitFail cl) s).error = some "回答の処理に失敗しました。"
    ∧ (cl = true →
        (step (.submitFail cl) s).currentTranscript = s.currentTranscript
        ∧ (step (.submitFail cl) s).isListening = s.isListening)
    ∧ (cl = false → s.isSupported = true →
        (step (.submitFail cl) s).currentTranscript = ""
        ∧ (step (.submitFail cl) s).isListening = true) := by
  refine ⟨?_, ?_, ?_, ?_, ?_⟩
  · simp [exec]
  · simp [exec]
  · simp [exec]
  · intro hcl
    subst hcl
    have hx : exec (.submitFail true) s
        = { s with status := .INTERVIEW_ACTIVE, error := some "回答の処理に失敗しました。" } := by
      simp only [exec]
      unfold startListeningStale
      rw [if_neg (by simp)]
    constructor
    · show (fireSync s (exec (.submitFail true) s)).currentTranscript = s.currentTranscript
      rw [hx]
      unfold fireSync
      rw [if_neg (by intro hc; rw [hP] at hc; exact absurd hc.2 (by simp))]
      unfold syncIfActive
      rw [if_pos rfl]
      simpa using hbuf
    · simp [exec, startListeningStale]
  · intro hcl hsup
    subst hcl
    have hx : exec (.submitFail false) s
        = { s with status := .INTERVIEW_ACTIVE, error := some "回答の処理に失敗しました。",
                   hookText := "", isListening := true } := by
      simp only [exec]
      unfold startListeningStale
      rw [if_pos ⟨by simpa using hsup, rfl⟩]
    constructor
    · show (fireSync s (exec (.submitFail false) s)).currentTranscript = ""
      rw [hx]
      unfold fireSync
      rw [if_neg (by intro hc; rw [hP] at hc; exact absurd hc.2 (by simp))]
      unfold syncIfActive
      rw [if_pos rfl]
    · simp [exec, startListeningStale, hsup]

def c3ws : SysState := run [.startCmd, .startOk false ⟨"", "Q1"⟩, .speech "hello", .submitCmd]
  (initState true 5 .ja)

/-- Witness for the amended C3 at the concrete processing state reached by a
real submission with capture running. -/
theorem claim3_amended_witness :
    (c3ws.status = .PROCESSING_ANSWER ∧ c3ws.hookText = c3ws.currentTranscript)
    ∧ ((step (.submitFail true) c3ws).status = .INTERVIEW_ACTIVE
      ∧ (step (.submitFail true) c3ws).qnaHistory = c3ws.qnaHistory
      ∧ (step (.submitFail true) c3ws).error = some "回答の処理に失敗しました。"
      ∧ (true = true →
          (step (.submitFail true) c3ws).currentTranscript = c3ws.currentTranscript
          ∧ (step (.submitFail true) c3ws).isListening = c3ws.isListening)
      ∧ (true = false → c3ws.isSupported = true →
          (step (.submitFail true) c3ws).currentTranscript = ""
          ∧ (step (.submitFail true) c3ws).isListening = true)) :=
  ⟨⟨rfl, rfl⟩, claim3_amended c3ws true rfl rfl⟩

def c5trace : List Event :=
  [.startCmd, .startOk false ⟨"", "Q1"⟩, .speech "my answer", .submitCmd, .quitCmd,
   .submitOk "my answer" true ⟨"good", "Q2"⟩]

/-- C5 counterexample: the user submits, quits during PROCESSING_ANSWER (the
session returns to IDLE), and then the outstanding sendAnswer response
arrives.  The response is applied to the idle session: status jumps back
to INTERVIEW_ACTIVE and the ledger is mutated, refuting the claim that a
stale exchange response is never applied after a quit. -/
theorem claim5_counterexample :
    (run c5trace (initState true 5 .ja)).status = .INTERVIEW_ACTIVE
    ∧ (run c5trace (initState true 5 .ja)).qnaHistory
        = [{ id := 1, question := "Q1", answer := "my answer", evaluation := some "good" },
           { id := 2, question := "Q2", answer := "", evaluation := none }] :=
  ⟨rfl, rfl⟩

/-- C5 amended: there is no epoch or invalidation mechanism; the success
branch of submitAnswer is applied unconditionally when the response
arrives, so a session that has returned to IDLE is moved back to
INTERVIEW_ACTIVE and its ledger grows by one turn. -/
theorem claim5_amended (s : SysState) (a : String) (cl : Bool) (resp : TurnResponse)
    (h : s.status = .IDLE) :
    (step (.submitOk a cl resp) s).status = .INTERVIEW_ACTIVE
    ∧ (step (.submitOk a cl resp) s).qnaHistory.length = s.qnaHistory.length + 1 := by
  constructor
  · simp [exec, resetTextM]
  · have hlen : ∀ (ans ev : String) (h : List InterviewQnA),
        (closeLast ans ev h).length = h.length := by
      intro ans ev h
      induction h with
      | nil => rfl
      | cons q t ih =>
          cases t with
          | nil => rfl
          | cons q' t' => simpa [closeLast] using ih
    simp [exec, resetTextM, pushNext, hlen]

def c5ws : SysState := run [.startCmd, .startOk false ⟨"", "Q1"⟩, .speech "my answer",
  .submitCmd, .quitCmd] (initState true 5 .ja)

/-- Witness for the amended C5 at the concrete post-quit idle state. -/
theorem claim5_amended_witness :
    c5ws.status = .IDLE
    ∧ ((step (.submitOk "my answer" true ⟨"good", "Q2"⟩) c5ws).status = .INTERVIEW_ACTIVE
      ∧ (step (.submitOk "my answer" true ⟨"good", "Q2"⟩) c5ws).qnaHistory.length
          = c5ws.qnaHistory.length + 1) :=
  ⟨rfl, claim5_amended c5ws "my answer" true ⟨"good", "Q2"⟩ rfl⟩

/-- C1: whenever the deadline expires while the session is
INTERVIEW_ACTIVE (the pending tick finds at most one second left),
the tick moves the session to PROCESSING_ANSWER with the clock pinned
to 0, whatever the active buffer holds, and the single resolution of
finishInterview then lands in FINISHED; the report request is built from
the filtered ledger, in which every turn has a nonempty trimmed answer
(the open unanswered turn is discarded). -/
theorem claim1_deadline_expiry (s : SysState) (u : Upstream FinalResult)
    (hA : s.status = .INTERVIEW_ACTIVE)
    (h0 : 0 < s.timeLeftSeconds) (h1 : s.timeLeftSeconds ≤ 1) :
    (step .tick s).status = .PROCESSING_ANSWER
    ∧ (step .tick s).timeLeftSeconds = 0
    ∧ (step .tick s).qnaHistory = s.qnaHistory
    ∧ (step (.finishResolve (validHistoryOf s) u) (step .tick s)).status = .FINISHED
    ∧ (step (.finishResolve (validHistoryOf s) u) (step .tick s)).finalResult
        = some (generateFinalReport (validHistoryOf s) s.language u)
    ∧ ∀ q ∈ validHistoryOf s, jsTrim q.answer ≠ "" := by
  have hx : exec .tick s
      = { stopListeningM s with status := .PROCESSING_ANSWER, timeLeftSeconds := 0 } := by
    simp only [exec]
    rw [if_pos ⟨hA, h0⟩, if_pos h1]
  have hlang : (step .tick s).language = s.language := by
    rw [step_language, hx]; simp
  refine ⟨?_, ?_, ?_, ?_, ?_, ?_⟩
  · rw [step_status, hx]
  · rw [step_timeLeftSeconds, hx]
  · rw [step_qnaHistory, hx]; simp
  · rw [step_status]; simp [exec]
  · rw [step_finalResult]
    show some (generateFinalReport (validHistoryOf s) (step .tick s).language u)
        = some (generateFinalReport (validHistoryOf s) s.language u)
    rw [hlang]
  · intro q hq
    have hmem := (List.mem_filter.mp hq).2
    simpa using hmem

def c1ws : SysState :=
  { status := .INTERVIEW_ACTIVE, timeLimitMinutes := 5, timeLeftSeconds := 1,
    currentTranscript := "partly spoken", qnaHistory := [⟨1, "Q1", "fine answer", none⟩,
    ⟨2, "Q2", "", none⟩], finalResult := none, error := none, language := .ja,
    hookText := "partly spoken", isListening := true, isSupported := true }

def c1wu : Upstream FinalResult := .parsed ⟨85, "good", [], [], "adv"⟩

/-- Witness for C1 at a concrete expiring session whose last turn is open. -/
theorem claim1_deadline_expiry_witness :
    (c1ws.status = .INTERVIEW_ACTIVE ∧ 0 < c1ws.timeLeftSeconds ∧ c1ws.timeLeftSeconds ≤ 1)
    ∧ ((step .tick c1ws).status = .PROCESSING_ANSWER
      ∧ (step .tick c1ws).timeLeftSeconds = 0
      ∧ (step .tick c1ws).qnaHistory = c1ws.qnaHistory
      ∧ (step (.finishResolve (validHistoryOf c1ws) c1wu) (step .tick c1ws)).status = .FINISHED
      ∧ (step (.finishResolve (validHistoryOf c1ws) c1wu) (step .tick c1ws)).finalResult
          = some (generateFinalReport (validHistoryOf c1ws) c1ws.language c1wu)
      ∧ ∀ q ∈ validHistoryOf c1ws, jsTrim q.answer ≠ "") :=
  ⟨⟨rfl, by decide, by decide⟩, claim1_deadline_expiry c1ws c1wu rfl (by decide) (by decide)⟩

lemma closeLast_length (ans ev : String) (h : List InterviewQnA) :
    (closeLast ans ev h).length = h.length := by
  induction h with
  | nil => rfl
  | cons q t ih =>
      cases t with
      | nil => rfl
      | cons q' t' => simpa [closeLast] using ih

lemma closeLast_ids (ans ev : String) (h : List InterviewQnA) :
    ledgerIds (closeLast ans ev h) = ledgerIds h := by
  induction h with
  | nil => rfl
  | cons q t ih =>
      cases t with
      | nil => rfl
      | cons q' t' => simpa [closeLast, ledgerIds] using ih

lemma pushNext_ids (a : String) (resp : TurnResponse) (h : List InterviewQnA) :
    ledgerIds (pushNext a resp h) = ledgerIds h ++ [h.length + 1] := by
  simp [pushNext, ledgerIds]
  simpa [ledgerIds] using closeLast_ids a resp.evaluation h

lemma pushNext_length (a : String) (resp : TurnResponse) (h : List InterviewQnA) :
    (pushNext a resp h).length = h.length + 1 := by
  simp [pushNext, closeLast_length]

/-- Ids of the ledger are well formed: they read 1, 2, ..., length in order. -/
def idsOk (s : SysState) : Prop :=
  ledgerIds s.qnaHistory = List.range' 1 s.qnaHistory.length

lemma take_ids_self (h : List InterviewQnA) :
    (ledgerIds h).take h.length = ledgerIds h := by
  unfold ledgerIds
  rw [show h.length = (h.map (fun q => q.id)).length from (List.length_map h _).symm,
    List.take_length]

lemma idsOk_step (e : Event) (s : SysState) (h : idsOk s) : idsOk (step e s) := by
  unfold idsOk at h ⊢
  rw [step_qnaHistory]
  cases e with
  | startCmd => simp [exec, ledgerIds]
  | startOk cl resp =>
      simp only [exec]
      split <;> simp [resetTextM, ledgerIds] <;> decide
  | startFail => simpa [exec] using h
  | speech t =>
      simp only [exec]
      split <;> simpa using h
  | micToggle =>
      simp only [exec]
      split <;> simpa using h
  | submitCmd =>
      simp only [exec]
      split <;> simpa using h
  | submitOk a cl resp =>
      have hq : (exec (.submitOk a cl resp) s).qnaHistory = pushNext a resp s.qnaHistory := by
        simp [exec, resetTextM]
      rw [hq, pushNext_ids, pushNext_length, h]
      have hc := @List.range'_concat 1 1 s.qnaHistory.length
      simpa [Nat.add_comm] using hc.symm
  | submitFail cl =>
      simpa [exec] using h
  | quitCmd => simpa [exec] using h
  | tick =>
      simp only [exec]
      split
      · split <;> simpa using h
      · simpa using h
  | finishResolve hist u => simpa [exec] using h
  | goHome => simpa [exec] using h

lemma idsOk_run (es : List Event) (s : SysState) (h : idsOk s) : idsOk (run es s) := by
  induction es generalizing s with
  | nil => exact h
  | cons e t ih => exact ih (step e s) (idsOk_step e s h)

/-- C2: for every sequence of start, submit, quit and tick events, the ledger
ids read exactly 1..N in order, with no gaps and no repeats; and no
event short of a session restart ever changes the id of an existing
turn (the ids of the first length-many turns survive every such event,
and the id is fixed at creation). -/
theorem claim2_ledger_ids :
    (∀ (es : List Event) (b : Bool) (lim : Int) (lang : Language),
        ledgerIds (run es (initState b lim lang)).qnaHistory
          = List.range' 1 (run es (initState b lim lang)).qnaHistory.length)
    ∧ (∀ (e : Event) (s : SysState), isStartEvent e = false →
        (ledgerIds (step e s).qnaHistory).take s.qnaHistory.length
          = ledgerIds s.qnaHistory) := by
  constructor
  · intro es b lim lang
    exact idsOk_run es _ (by simp [idsOk, initState, ledgerIds])
  · intro e s he
    rw [step_qnaHistory]
    cases e with
    | startCmd => simp [isStartEvent] at he
    | startOk cl resp => simp [isStartEvent] at he
    | startFail => simp [isStartEvent] at he
    | speech t =>
        simp only [exec]
        split <;> exact take_ids_self s.qnaHistory
    | micToggle =>
        simp only [exec]
        split <;> simp [take_ids_self]
    | submitCmd =>
        simp only [exec]
        split <;> simp [take_ids_self]
    | submitOk a cl resp =>
        have hq : (exec (.submitOk a cl resp) s).qnaHistory = pushNext a resp s.qnaHistory := by
          simp [exec, resetTextM]
        have hl : s.qnaHistory.length = (ledgerIds s.qnaHistory).length :=
          (List.length_map s.qnaHistory _).symm
        rw [hq, pushNext_ids, hl]
        exact List.take_left _ _
    | submitFail cl => simp [exec, take_ids_self]
    | quitCmd => simp [exec, take_ids_self]
    | tick =>
        simp only [exec]
        split
        · split <;> simp [take_ids_self]
        · exact take_ids_self s.qnaHistory
    | finishResolve hist u => simp [exec, take_ids_self]
    | goHome => simp [exec, take_ids_self]

def c2wtrace : List Event :=
  [.startCmd, .startOk false ⟨"", "Q1"⟩, .speech "first answer", .submitCmd,
   .submitOk "first answer" true ⟨"well put", "Q2"⟩]

def c2ws : SysState := run c2wtrace (initState true 5 .ja)

/-- Witness for C2: the id sequence of a concrete two-turn run, and the id
stability of a concrete non-start event. -/
theorem claim2_ledger_ids_witness :
    (ledgerIds (run c2wtrace (initState true 5 .ja)).qnaHistory
      = List.range' 1 (run c2wtrace (initState true 5 .ja)).qnaHistory.length)
    ∧ (isStartEvent .quitCmd = false
      ∧ (ledgerIds (step .quitCmd c2ws).qnaHistory).take c2ws.qnaHistory.length
          = ledgerIds c2ws.qnaHistory) :=
  ⟨claim2_ledger_ids.1 c2wtrace true 5 .ja,
   by decide,
   claim2_ledger_ids.2 .quitCmd c2ws (by decide)⟩

lemma timeLeft_preserved (e : Event) (s : SysState)
    (h1 : e ≠ .startCmd) (h2 : e ≠ .tick) :
    (step e s).timeLeftSeconds = s.timeLeftSeconds := by
  rw [step_timeLeftSeconds]
  cases e with
  | startCmd => exact absurd rfl h1
  | tick => exact absurd rfl h2
  | startOk cl resp =>
      simp only [exec]
      split <;> simp [resetTextM]
  | startFail => simp [exec]
  | speech t =>
      simp only [exec]
      split <;> rfl
  | micToggle =>
      simp only [exec]
      split <;> simp
  | submitCmd =>
      simp only [exec]
      split <;> simp
  | submitOk a cl resp => simp [exec, resetTextM]
  | submitFail cl => simp [exec]
  | quitCmd => simp [exec]
  | finishResolve hist u => simp [exec]
  | goHome => simp [exec]

lemma timeLimit_preserved (e : Event) (s : SysState) :
    (step e s).timeLimitMinutes = s.timeLimitMinutes := by
  rw [step_timeLimitMinutes]
  cases e with
  | startCmd => simp [exec]
  | startOk cl resp =>
      simp only [exec]
      split <;> simp [resetTextM]
  | startFail => simp [exec]
  | speech t =>
      simp only [exec]
      split <;> rfl
  | micToggle =>
      simp only [exec]
      split <;> simp
  | submitCmd =>
      simp only [exec]
      split <;> simp
  | submitOk a cl resp => simp [exec, resetTextM]
  | submitFail cl => simp [exec]
  | quitCmd => simp [exec]
  | tick =>
      simp only [exec]
      split
      · split <;> simp
      · rfl
  | finishResolve hist u => simp [exec]
  | goHome => simp [exec]

/-- The clock state is well formed: nonnegative limit and remaining time. -/
def timerInv (s : SysState) : Prop :=
  0 ≤ s.timeLimitMinutes ∧ 0 ≤ s.timeLeftSeconds

lemma timerInv_step (e : Event) (s : SysState) (h : timerInv s) : timerInv (step e s) := by
  obtain ⟨hm, ht⟩ := h
  constructor
  · rw [timeLimit_preserved]; exact hm
  · by_cases h1 : e = .startCmd
    · subst h1
      rw [step_timeLeftSeconds]
      simp only [exec]
      exact mul_nonneg hm (by norm_num)
    · by_cases h2 : e = .tick
      · subst h2
        rw [step_timeLeftSeconds]
        simp only [exec]
        by_cases hg : s.status = .INTERVIEW_ACTIVE ∧ 0 < s.timeLeftSeconds
        · rw [if_pos hg]
          by_cases hle : s.timeLeftSeconds ≤ 1
          · rw [if_pos hle]
          · rw [if_neg hle]
            simp only []
            omega
        · rw [if_neg hg]; exact ht
      · rw [timeLeft_preserved e s h1 h2]; exact ht

lemma timerInv_run (es : List Event) (s : SysState) (h : timerInv s) : timerInv (run es s) := by
  induction es generalizing s with
  | nil => exact h
  | cons e t ih => exact ih (step e s) (timerInv_step e s h)

lemma timeLeft_zero_stable (es : List Event) (s : SysState)
    (h0 : s.timeLeftSeconds = 0) (hn : ∀ e ∈ es, e ≠ Event.startCmd) :
    (run es s).timeLeftSeconds = 0 := by
  induction es generalizing s with
  | nil => exact h0
  | cons e t ih =>
      apply ih
      · by_cases h2 : e = .tick
        · subst h2
          rw [step_timeLeftSeconds]
          simp only [exec]
          rw [if_neg]
          · exact h0
          · rintro ⟨_, hlt⟩
            omega
        · rw [timeLeft_preserved e s (hn e (by simp)) h2]; exact h0
      · intro e' he'
        exact hn e' (by simp [he'])

/-- C6: the countdown decrements by exactly one per tick, and only while the
session is INTERVIEW_ACTIVE (a tick in any other state changes
nothing, so entering PROCESSING_ANSWER freezes the count and returning
to INTERVIEW_ACTIVE resumes from the frozen value, since no event other
than a session start or a tick touches the clock); the expiry fires at
remaining value 1, pinning the clock to exactly 0, never below, and it
fires at most once: once the clock reads 0 it stays 0 under every
start-free event sequence, during which the expiry branch can never run
again. -/
theorem claim6_timer_discipline :
    (∀ s : SysState, s.status = .INTERVIEW_ACTIVE → 1 < s.timeLeftSeconds →
        step .tick s = { s with timeLeftSeconds := s.timeLeftSeconds - 1 })
    ∧ (∀ s : SysState, s.status = .INTERVIEW_ACTIVE → s.timeLeftSeconds = 1 →
        (step .tick s).timeLeftSeconds = 0 ∧ (step .tick s).status = .PROCESSING_ANSWER)
    ∧ (∀ s : SysState, s.status ≠ .INTERVIEW_ACTIVE → step .tick s = s)
    ∧ (∀ (e : Event) (s : SysState), e ≠ .startCmd → e ≠ .tick →
        (step e s).timeLeftSeconds = s.timeLeftSeconds)
    ∧ (∀ (b : Bool) (lim : Int) (lang : Language) (es : List Event), 0 ≤ lim →
        0 ≤ (run es (initState b lim lang)).timeLeftSeconds)
    ∧ (∀ (s : SysState) (es : List Event), s.timeLeftSeconds = 0 →
        (∀ e ∈ es, e ≠ Event.startCmd) →
        (run es s).timeLeftSeconds = 0 ∧ ¬ tickFires (run es s)) := by
  refine ⟨?_, ?_, ?_, ?_, ?_, ?_⟩
  · intro s hA h1
    have hx : exec .tick s = { s with timeLeftSeconds := s.timeLeftSeconds - 1 } := by
      simp only [exec]
      rw [if_pos ⟨hA, by omega⟩, if_neg (by omega)]
    show fireSync s (exec .tick s) = _
    rw [hx]
    unfold fireSync
    rw [if_pos ⟨rfl, rfl⟩]
  · intro s hA h1
    have hx : exec .tick s
        = { stopListeningM s with status := .PROCESSING_ANSWER, timeLeftSeconds := 0 } := by
      simp only [exec]
      rw [if_pos ⟨hA, by omega⟩, if_pos (by omega)]
    constructor
    · rw [step_timeLeftSeconds, hx]
    · rw [step_status, hx]
  · intro s hs
    have hx : exec .tick s = s := by
      simp only [exec]
      rw [if_neg (fun hc => hs hc.1)]
    show fireSync s (exec .tick s) = s
    rw [hx]
    unfold fireSync
    rw [if_pos ⟨rfl, rfl⟩]
  · exact timeLeft_preserved
  · intro b lim lang es hl
    exact (timerInv_run es _ ⟨by simpa [initState] using hl, by simp [initState]⟩).2
  · intro s es h0 hn
    refine ⟨timeLeft_zero_stable es s h0 hn, ?_⟩
    rintro ⟨_, hpos, _⟩
    rw [timeLeft_zero_stable es s h0 hn] at hpos
    omega

def c6ws : SysState :=
  { initState true 5 .ja with status := .INTERVIEW_ACTIVE, timeLeftSeconds := 10 }

/-- Witness for C6: the concrete decrement of an active ten-second clock, and
nonnegativity of a concrete run that starts and ticks. -/
theorem claim6_timer_discipline_witness :
    (c6ws.status = .INTERVIEW_ACTIVE ∧ 1 < c6ws.timeLeftSeconds
      ∧ step .tick c6ws = { c6ws with timeLeftSeconds := c6ws.timeLeftSeconds - 1 })
    ∧ ((0 : Int) ≤ 5 ∧ 0 ≤ (run [.startCmd, .tick] (initState true 5 .ja)).timeLeftSeconds) :=
  ⟨⟨rfl, by decide, claim6_timer_discipline.1 c6ws rfl (by decide)⟩,
   ⟨by decide, claim6_timer_discipline.2.2.2.2.1 true 5 .ja [.startCmd, .tick] (by decide)⟩⟩

end MockInterview
